import Mathlib

/-!
Verification of the background-subtraction lightcurve-cleaning routine
`my_custom_lc_cleaner` from the lightkurve tutorial notebook
`docs/source/tutorials/1.05-interact-with-lightcurves-and-tpf.ipynb`.

The routine is:

```python
def my_custom_lc_cleaner(tpf):
    aper_mask = tpf.pipeline_mask * False
    aper_mask[1:-1, 1:-1] = True
    back_mask = ~aper_mask & ~np.all(np.isnan(tpf.flux), axis=0)
    lc_aper = tpf.to_lightcurve(aperture_mask=aper_mask) / aper_mask.sum()
    lc_back = tpf.to_lightcurve(aperture_mask=back_mask) / back_mask.sum()
    lc_bg_sub = lc_aper - lc_back.flux
    lc_cln = lc_bg_sub.remove_outliers()
    return lc_cln
```

We embed the arrays shallowly: a 2-D boolean array becomes a `Mask2D`
(explicit height/width plus a total cell function, false outside the
array bounds, as reads of a numpy array are only ever in-bounds); the
pixel cube becomes a `TargetPixelFile` carrying flux values together
with an explicit is-NaN marker (floating-point NaN is modelled as a
flag alongside a rational value, since the routine inspects NaN-ness
only through `np.isnan`).  Flux values are rationals.
-/

/-- A 2-D boolean array of shape `H × W` (row index first).  The cell
function is total; cells outside the bounds are irrelevant to the
aggregate operations, which restrict to `i < H`, `j < W`. -/
structure Mask2D where
  H : Nat
  W : Nat
  cell : Nat → Nat → Bool

/-- A target pixel file: `T` cadences of `pipeline_mask.H × pipeline_mask.W`
pixel images.  `flux t i j` is the flux value at cadence `t`, row `i`,
column `j`; `isnan t i j` marks that entry as NaN (invalid).  `time t`
is the timestamp of cadence `t`.  `pipeline_mask` is the pipeline-provided
source mask, of the cube's spatial shape. -/
structure TargetPixelFile where
  T : Nat
  time : Nat → ℚ
  flux : Nat → Nat → Nat → ℚ
  isnan : Nat → Nat → Nat → Bool
  pipeline_mask : Mask2D

/-- The set of in-bounds true cells of a mask, as `(row, column)` pairs. -/
def Mask2D.trueCells (m : Mask2D) : Finset (Nat × Nat) :=
  (Finset.range m.H ×ˢ Finset.range m.W).filter (fun p => m.cell p.1 p.2 = true)

/-- `mask.sum()`: the number of true cells of the array. -/
def Mask2D.sum (m : Mask2D) : Nat :=
  m.trueCells.card

/-- `tpf.pipeline_mask * False`: elementwise AND with `False`, yielding a
fresh all-false array of the same shape (numpy `*` allocates a new array). -/
def maskTimesFalse (m : Mask2D) : Mask2D :=
  { H := m.H, W := m.W, cell := fun i j => m.cell i j && false }

/-- `aper_mask[1:-1, 1:-1] = True`: set every interior cell (row indices
`1 .. H-2`, column indices `1 .. W-2`) to true, leaving the rest unchanged.
The numpy slice `1:-1` over an extent `n` covers indices `i` with
`1 ≤ i` and `i + 1 < n` (empty when `n ≤ 2`). -/
def setInteriorTrue (m : Mask2D) : Mask2D :=
  { H := m.H, W := m.W
    cell := fun i j =>
      if 1 ≤ i ∧ i + 1 < m.H ∧ 1 ≤ j ∧ j + 1 < m.W then true else m.cell i j }

/-- The first two statements of the routine: the intermediate inner
("source") aperture derived from the pipeline-provided source mask. -/
def aper_mask (src : Mask2D) : Mask2D :=
  setInteriorTrue (maskTimesFalse src)

/-- `np.all(np.isnan(tpf.flux), axis=0)` at spatial location `(i, j)`:
whether the pixel is NaN at every cadence (vacuously true when `T = 0`,
as numpy's `all` over an empty axis is). -/
def allNanAt (tpf : TargetPixelFile) (i j : Nat) : Bool :=
  (List.range tpf.T).all (fun t => tpf.isnan t i j)

/-- `back_mask = ~aper_mask & ~np.all(np.isnan(tpf.flux), axis=0)`:
the background mask, true where the inner aperture is false and the
pixel is not NaN at all cadences. -/
def back_mask (tpf : TargetPixelFile) (aper : Mask2D) : Mask2D :=
  { H := aper.H, W := aper.W
    cell := fun i j => !aper.cell i j && !allNanAt tpf i j }

/-- An ordered sequence of `(time, flux)` samples, one per cadence:
`n` cadences, with timestamp `time t` and flux `flux t` at cadence `t`. -/
structure LightCurve where
  n : Nat
  time : Nat → ℚ
  flux : Nat → ℚ

/-- Modelled from the spec: `tpf.to_lightcurve(aperture_mask=mask)` is the
external aperture-photometry capability, absent from the supplied source.
Per the spec it produces, per time sample, the sum of flux over all true
mask locations, with the timestamps of the cube's cadences. -/
def TargetPixelFile.to_lightcurve (tpf : TargetPixelFile) (aperture_mask : Mask2D) :
    LightCurve :=
  { n := tpf.T
    time := tpf.time
    flux := fun t => ∑ p ∈ aperture_mask.trueCells, tpf.flux t p.1 p.2 }

/-- `lc / k`: elementwise division of the flux by a scalar count. -/
def LightCurve.divNat (lc : LightCurve) (k : Nat) : LightCurve :=
  { n := lc.n, time := lc.time, flux := fun t => lc.flux t / (k : ℚ) }

/-- `lc_aper - lc_back.flux`: subtract a flux array from a lightcurve,
elementwise on flux, keeping the left operand's timestamps and length. -/
def LightCurve.subFlux (lc : LightCurve) (g : Nat → ℚ) : LightCurve :=
  { n := lc.n, time := lc.time, flux := fun t => lc.flux t - g t }

/-- The Flux Aggregator of the routine:
`tpf.to_lightcurve(aperture_mask=mask) / mask.sum()`. -/
def flux_aggregator (tpf : TargetPixelFile) (m : Mask2D) : LightCurve :=
  (tpf.to_lightcurve m).divNat m.sum

/-- The heights agree: the inner aperture has the source mask's shape. -/
theorem aper_mask_H (src : Mask2D) : (aper_mask src).H = src.H := rfl

/-- The widths agree: the inner aperture has the source mask's shape. -/
theorem aper_mask_W (src : Mask2D) : (aper_mask src).W = src.W := rfl

/-- The background mask has the inner aperture's height. -/
theorem back_mask_H (tpf : TargetPixelFile) (a : Mask2D) :
    (back_mask tpf a).H = a.H := rfl

/-- The background mask has the inner aperture's width. -/
theorem back_mask_W (tpf : TargetPixelFile) (a : Mask2D) :
    (back_mask tpf a).W = a.W := rfl

/-- The inner aperture is exactly the interior indicator: multiplying the
source mask by `False` erases its content, and the slice assignment sets
precisely the interior cells. -/
theorem aper_mask_cell (src : Mask2D) (i j : Nat) :
    (aper_mask src).cell i j =
      decide (1 ≤ i ∧ i + 1 < src.H ∧ 1 ≤ j ∧ j + 1 < src.W) := by
  by_cases h : 1 ≤ i ∧ i + 1 < src.H ∧ 1 ≤ j ∧ j + 1 < src.W <;>
    simp [aper_mask, setInteriorTrue, maskTimesFalse, h] <;> omega

/-- The background mask cell, unfolded. -/
theorem back_mask_cell (tpf : TargetPixelFile) (a : Mask2D) (i j : Nat) :
    (back_mask tpf a).cell i j = (!a.cell i j && !allNanAt tpf i j) := rfl

/-- The spec's words for the inner aperture: the Source Mask "eroded by one
pixel on each border", i.e. the Source Mask with its border ring removed. -/
def erodedSourceMaskSpec (m : Mask2D) : Mask2D :=
  { H := m.H, W := m.W
    cell := fun i j =>
      m.cell i j && decide (1 ≤ i ∧ i + 1 < m.H ∧ 1 ≤ j ∧ j + 1 < m.W) }

/-- The spec's words for the background ring: "all non-source, non-missing
pixels" — cells where the Source Mask is false and the pixel is not
invalid at every cadence. -/
def nonSourceNonMissingSpec (tpf : TargetPixelFile) (src : Mask2D) : Mask2D :=
  { H := src.H, W := src.W
    cell := fun i j => !src.cell i j && !allNanAt tpf i j }

/-- The all-true mask of a given shape. -/
def fullMask (H W : Nat) : Mask2D :=
  { H := H, W := W, cell := fun _ _ => true }

/-- The all-true 3×3 mask. -/
def mask3all : Mask2D := fullMask 3 3

/-- The all-false 3×3 mask. -/
def mask3none : Mask2D := { H := 3, W := 3, cell := fun _ _ => false }

/-- A 3×3 mask whose single true cell is the center `(1, 1)`. -/
def mask3center : Mask2D :=
  { H := 3, W := 3, cell := fun i j => decide (i = 1 ∧ j = 1) }

/-- A synthetic 3-cadence 3×3 pixel cube with no invalid pixels and an
all-true pipeline mask; flux at cadence `t`, row `i`, column `j` is
`9t + 3i + j + 1`. -/
def cube3 : TargetPixelFile :=
  { T := 3
    time := fun t => (t : ℚ)
    flux := fun t i j => (9 * t + 3 * i + j + 1 : ℚ)
    isnan := fun _ _ _ => false
    pipeline_mask := mask3all }

/-- As `cube3`, but with an all-false pipeline mask. -/
def cube3none : TargetPixelFile := { cube3 with pipeline_mask := mask3none }


/-- Claim C1 counterexample: with the synthetic 3×3 cube, whose
pipeline-provided Source Mask is all-true and whose pixels are never
invalid, the Background Mask and the Source Mask are both true at the
corner `(0, 0)`, so they are not disjoint — the claimed invariant fails. -/
theorem C1_counterexample :
    cube3.pipeline_mask.cell 0 0 = true ∧
    (back_mask cube3 (aper_mask cube3.pipeline_mask)).cell 0 0 = true := by
  decide

/-- Claim C1 (amended): for every pipeline-provided Source Mask and Pixel
Cube, the Background Mask derived by the Aperture Partitioner is disjoint
from the derived inner source aperture (not, in general, from the
pipeline-provided Source Mask): no pixel location is true in both. -/
theorem C1_amended (tpf : TargetPixelFile) (src : Mask2D) (i j : Nat) :
    ((aper_mask src).cell i j &&
      (back_mask tpf (aper_mask src)).cell i j) = false := by
  cases h : (aper_mask src).cell i j <;> simp [back_mask, h]

/-- Claim C3 counterexample: for the all-false 3×3 Source Mask, the
routine's inner aperture is true at the center even though the eroded
Source Mask is false there, and the Background Mask is false at the
center even though the center is a non-source, non-missing pixel: the
derived masks do not depend on the Source Mask's content as claimed. -/
theorem C3_counterexample :
    mask3none.cell 1 1 = false ∧
    (aper_mask mask3none).cell 1 1 = true ∧
    (erodedSourceMaskSpec mask3none).cell 1 1 = false ∧
    (back_mask cube3none (aper_mask mask3none)).cell 1 1 = false ∧
    (nonSourceNonMissingSpec cube3none mask3none).cell 1 1 = true := by
  decide

/-- Claim C3 (amended): for every Source Mask, the intermediate inner
aperture equals the all-true mask of the Source Mask's shape eroded by
one pixel on each border — independent of which Source Mask cells are
true — and the Background Mask equals exactly the set of
non-inner-aperture, non-missing pixel locations. -/
theorem C3_amended (tpf : TargetPixelFile) (src : Mask2D) (i j : Nat) :
    (aper_mask src).cell i j =
      (erodedSourceMaskSpec (fullMask src.H src.W)).cell i j ∧
    (back_mask tpf (aper_mask src)).cell i j =
      (nonSourceNonMissingSpec tpf (aper_mask src)).cell i j := by
  exact ⟨by rw [aper_mask_cell]; simp [erodedSourceMaskSpec, fullMask], rfl⟩

/-- Claim C4: for every Pixel Cube whose Source Mask has shape `H × W`
with `H, W ≥ 3`, the Background Mask and the inner aperture are disjoint,
and the Background Mask is true exactly at in-bounds pixel locations
outside the inner aperture that are not invalid across all cadences. -/
theorem C4_back_mask_exact (tpf : TargetPixelFile)
    (hH : 3 ≤ tpf.pipeline_mask.H) (hW : 3 ≤ tpf.pipeline_mask.W)
    (i j : Nat) (hi : i < tpf.pipeline_mask.H) (hj : j < tpf.pipeline_mask.W) :
    ((aper_mask tpf.pipeline_mask).cell i j &&
      (back_mask tpf (aper_mask tpf.pipeline_mask)).cell i j) = false ∧
    ((back_mask tpf (aper_mask tpf.pipeline_mask)).cell i j = true ↔
      ((aper_mask tpf.pipeline_mask).cell i j = false ∧
        ¬(∀ t, t < tpf.T → tpf.isnan t i j = true))) := by
  constructor
  · cases h : (aper_mask tpf.pipeline_mask).cell i j <;> simp [back_mask, h]
  · simp [back_mask, allNanAt, List.all_eq_true, List.mem_range]

/-- Witness for C4 at the synthetic 3×3 cube, corner `(0, 0)`. -/
theorem C4_back_mask_exact_witness :
    ((aper_mask cube3.pipeline_mask).cell 0 0 &&
      (back_mask cube3 (aper_mask cube3.pipeline_mask)).cell 0 0) = false ∧
    ((back_mask cube3 (aper_mask cube3.pipeline_mask)).cell 0 0 = true ↔
      ((aper_mask cube3.pipeline_mask).cell 0 0 = false ∧
        ¬(∀ t, t < cube3.T → cube3.isnan t 0 0 = true))) :=
  C4_back_mask_exact cube3 (by decide) (by decide) 0 0 (by decide) (by decide)

/-- Claim C5: for every Pixel Cube and every mask with exactly one true
in-bounds cell, the Flux Aggregator (aperture photometry divided by the
count of true cells) yields at every cadence the flux of that single cell
unchanged, the normalization divisor being 1. -/
theorem C5_single_cell_flux (tpf : TargetPixelFile) (m : Mask2D) (i0 j0 : Nat)
    (hi : i0 < m.H) (hj : j0 < m.W)
    (huniq : ∀ i j, i < m.H → j < m.W → (m.cell i j = true ↔ (i = i0 ∧ j = j0))) :
    m.sum = 1 ∧ ∀ t, (flux_aggregator tpf m).flux t = tpf.flux t i0 j0 := by
  have htc : m.trueCells = {(i0, j0)} := by
    ext p
    obtain ⟨i, j⟩ := p
    simp only [Mask2D.trueCells, Finset.mem_filter, Finset.mem_product,
      Finset.mem_range, Finset.mem_singleton, Prod.mk.injEq]
    constructor
    · rintro ⟨⟨h1, h2⟩, h3⟩
      exact (huniq i j h1 h2).1 h3
    · rintro ⟨rfl, rfl⟩
      exact ⟨⟨hi, hj⟩, (huniq i j hi hj).2 ⟨rfl, rfl⟩⟩
  have hsum : m.sum = 1 := by simp [Mask2D.sum, htc]
  refine ⟨hsum, fun t => ?_⟩
  simp [flux_aggregator, TargetPixelFile.to_lightcurve, LightCurve.divNat, hsum, htc]

/-- Witness for C5: the 3×3 mask whose single true cell is the center,
over the synthetic cube. -/
theorem C5_single_cell_flux_witness :
    mask3center.sum = 1 ∧
    ∀ t, (flux_aggregator cube3 mask3center).flux t = cube3.flux t 1 1 :=
  C5_single_cell_flux cube3 mask3center 1 1 (by decide) (by decide)
    (fun i j _ _ => by simp [mask3center])

/-- Claim C6: for Time Series with identical cadence count and aligned
timestamps, the Background Subtractor produces at each cadence the
difference of fluxes at that index, and it is antisymmetric: negating the
result of subtracting B from A equals the result of subtracting A from B
(flux, cadence count, and timestamps all agree). -/
theorem C6_subtractor_antisymmetric (a b : LightCurve)
    (hn : a.n = b.n) (ht : ∀ t, t < a.n → a.time t = b.time t) :
    (∀ t, (a.subFlux b.flux).flux t = a.flux t - b.flux t) ∧
    (∀ t, -((a.subFlux b.flux).flux t) = (b.subFlux a.flux).flux t) ∧
    (a.subFlux b.flux).n = (b.subFlux a.flux).n ∧
    (∀ t, t < a.n → (a.subFlux b.flux).time t = (b.subFlux a.flux).time t) :=
  ⟨fun _ => rfl, fun t => by simp [LightCurve.subFlux, neg_sub], hn, ht⟩

/-- A concrete 2-cadence lightcurve, flux `t + 5` at time `t`. -/
def lcA : LightCurve :=
  { n := 2, time := fun t => (t : ℚ), flux := fun t => (t : ℚ) + 5 }

/-- A concrete 2-cadence lightcurve, flux `2t` at time `t`. -/
def lcB : LightCurve :=
  { n := 2, time := fun t => (t : ℚ), flux := fun t => 2 * (t : ℚ) }

/-- Witness for C6 on two concrete aligned 2-cadence lightcurves. -/
theorem C6_subtractor_antisymmetric_witness :
    (∀ t, (lcA.subFlux lcB.flux).flux t = lcA.flux t - lcB.flux t) ∧
    (∀ t, -((lcA.subFlux lcB.flux).flux t) = (lcB.subFlux lcA.flux).flux t) ∧
    (lcA.subFlux lcB.flux).n = (lcB.subFlux lcA.flux).n ∧
    (∀ t, t < lcA.n → (lcA.subFlux lcB.flux).time t = (lcB.subFlux lcA.flux).time t) :=
  C6_subtractor_antisymmetric lcA lcB rfl (fun _ _ => rfl)

/-- Claim C7: for every Source Mask of shape `H × W` with `H, W ≥ 1`,
including degenerate grids of width or height at most 2, the Aperture
Partitioner is a total function whose Background Mask has the input's
shape; degenerate inputs yield an all-false (degenerate) inner aperture
rather than a failure. -/
theorem C7_degenerate_total (src : Mask2D) (tpf : TargetPixelFile)
    (hH : 1 ≤ src.H) (hW : 1 ≤ src.W) :
    (back_mask tpf (aper_mask src)).H = src.H ∧
    (back_mask tpf (aper_mask src)).W = src.W ∧
    ((src.H ≤ 2 ∨ src.W ≤ 2) → ∀ i j, (aper_mask src).cell i j = false) := by
  refine ⟨rfl, rfl, fun hdeg i j => ?_⟩
  rw [aper_mask_cell]
  simp only [decide_eq_false_iff_not]
  omega

/-- A degenerate 1×3 all-true mask. -/
def mask1x3 : Mask2D := { H := 1, W := 3, cell := fun _ _ => true }

/-- Witness for C7 at a degenerate 1×3 mask. -/
theorem C7_degenerate_total_witness :
    (back_mask cube3 (aper_mask mask1x3)).H = mask1x3.H ∧
    (back_mask cube3 (aper_mask mask1x3)).W = mask1x3.W ∧
    ((mask1x3.H ≤ 2 ∨ mask1x3.W ≤ 2) → ∀ i j, (aper_mask mask1x3).cell i j = false) :=
  C7_degenerate_total mask1x3 cube3 (by decide) (by decide)

/-- Claim C8: for every Source Mask of shape `H × W` with `H, W ≥ 3`, the
inner aperture has exactly `(H-2)(W-2) ≥ 1` true cells, so the divisor
normalizing the source-aperture series is positive. -/
theorem C8_inner_aperture_count (src : Mask2D) (hH : 3 ≤ src.H) (hW : 3 ≤ src.W) :
    (aper_mask src).sum = (src.H - 2) * (src.W - 2) ∧ 0 < (aper_mask src).sum := by
  have htc : (aper_mask src).trueCells =
      Finset.Ico 1 (src.H - 1) ×ˢ Finset.Ico 1 (src.W - 1) := by
    ext p
    obtain ⟨i, j⟩ := p
    simp only [Mask2D.trueCells, Finset.mem_filter, Finset.mem_product,
      Finset.mem_range, Finset.mem_Ico, aper_mask_cell, aper_mask_H, aper_mask_W,
      decide_eq_true_eq]
    omega
  have hsum : (aper_mask src).sum = (src.H - 2) * (src.W - 2) := by
    rw [Mask2D.sum, htc, Finset.card_product, Nat.card_Ico, Nat.card_Ico]
    congr 1 <;> omega
  exact ⟨hsum, hsum ▸ Nat.mul_pos (by omega) (by omega)⟩

/-- Witness for C8 at the all-true 3×3 mask: `(3-2)(3-2) = 1` interior cell. -/
theorem C8_inner_aperture_count_witness :
    (aper_mask mask3all).sum = (mask3all.H - 2) * (mask3all.W - 2) ∧
    0 < (aper_mask mask3all).sum :=
  C8_inner_aperture_count mask3all (by decide) (by decide)

/-- Claim C9: the derived masks do not depend on the Source Mask's
content: any two Source Masks of the same shape yield identical inner
apertures and identical Background Masks over any fixed Pixel Cube. -/
theorem C9_content_independence (tpf : TargetPixelFile) (m1 m2 : Mask2D)
    (hH : m1.H = m2.H) (hW : m1.W = m2.W) :
    aper_mask m1 = aper_mask m2 ∧
    back_mask tpf (aper_mask m1) = back_mask tpf (aper_mask m2) := by
  obtain ⟨H1, W1, c1⟩ := m1
  obtain ⟨H2, W2, c2⟩ := m2
  dsimp only at hH hW
  subst hH
  subst hW
  have h1 : aper_mask ⟨H1, W1, c1⟩ = aper_mask ⟨H1, W1, c2⟩ := by
    simp only [aper_mask, setInteriorTrue, maskTimesFalse]
    congr 1
    funext i j
    by_cases h : 1 ≤ i ∧ i + 1 < H1 ∧ 1 ≤ j ∧ j + 1 < W1 <;> simp [h]
  exact ⟨h1, congrArg (back_mask tpf) h1⟩

/-- Witness for C9: the all-true and all-false 3×3 masks give the same
derived masks over the synthetic cube. -/
theorem C9_content_independence_witness :
    aper_mask mask3all = aper_mask mask3none ∧
    back_mask cube3 (aper_mask mask3all) = back_mask cube3 (aper_mask mask3none) :=
  C9_content_independence cube3 mask3all mask3none rfl rfl

/-- Claim C2 counterexample: for the synthetic 3-cadence 3×3 cube with no
invalid pixels and an all-true Source Mask, the derived Background Mask is
not all-false: it is true at the in-bounds border pixel `(0, 1)` (the
inner aperture keeps only the center, and the whole border ring survives
the not-all-NaN filter). -/
theorem C2_counterexample :
    (back_mask cube3 (aper_mask cube3.pipeline_mask)).cell 0 1 = true := by
  decide

/-- Claim C2 (amended): for every 3-cadence 3×3 Pixel Cube with no
invalid pixels and an all-true Source Mask, the Background Mask is the
8-pixel border ring (false only at the center `(1, 1)`), its true-cell
count is 8, and the Flux Aggregator applied to it divides the per-cadence
flux sum over the ring by 8 — the divisor is positive, so the
division-by-zero edge case does not arise. -/
theorem C2_amended (tpf : TargetPixelFile)
    (hT : tpf.T = 3) (hH : tpf.pipeline_mask.H = 3) (hW : tpf.pipeline_mask.W = 3)
    (hnan : ∀ t i j, tpf.isnan t i j = false)
    (hsrc : ∀ i j, tpf.pipeline_mask.cell i j = true) (t : Nat) :
    (∀ i j, i < 3 → j < 3 →
      (back_mask tpf (aper_mask tpf.pipeline_mask)).cell i j =
        !decide (i = 1 ∧ j = 1)) ∧
    (back_mask tpf (aper_mask tpf.pipeline_mask)).sum = 8 ∧
    (flux_aggregator tpf (back_mask tpf (aper_mask tpf.pipeline_mask))).flux t =
      (∑ p ∈ (back_mask tpf (aper_mask tpf.pipeline_mask)).trueCells,
        tpf.flux t p.1 p.2) / 8 := by
  have hane : ∀ i j, allNanAt tpf i j = false := by
    intro i j
    rw [allNanAt, hT]
    simp [hnan]
    exact ⟨0, by norm_num⟩
  have hbc : ∀ i j, (back_mask tpf (aper_mask tpf.pipeline_mask)).cell i j =
      !decide (i = 1 ∧ j = 1) := by
    intro i j
    rw [back_mask_cell, aper_mask_cell, hH, hW, hane]
    have hiff : (1 ≤ i ∧ i + 1 < 3 ∧ 1 ≤ j ∧ j + 1 < 3) ↔ (i = 1 ∧ j = 1) := by
      omega
    simp [hiff]
  have hbH : (back_mask tpf (aper_mask tpf.pipeline_mask)).H = 3 := by
    rw [back_mask_H, aper_mask_H, hH]
  have hbW : (back_mask tpf (aper_mask tpf.pipeline_mask)).W = 3 := by
    rw [back_mask_W, aper_mask_W, hW]
  have htc : (back_mask tpf (aper_mask tpf.pipeline_mask)).trueCells =
      (Finset.range 3 ×ˢ Finset.range 3).erase (1, 1) := by
    simp only [Mask2D.trueCells, hbH, hbW]
    ext p
    obtain ⟨i, j⟩ := p
    simp only [Finset.mem_filter, Finset.mem_product, Finset.mem_range,
      Finset.mem_erase, hbc, Bool.not_eq_true', decide_eq_false_iff_not,
      ne_eq, Prod.mk.injEq]
    omega
  have hsum8 : (back_mask tpf (aper_mask tpf.pipeline_mask)).sum = 8 := by
    rw [Mask2D.sum, htc]
    decide
  refine ⟨fun i j _ _ => hbc i j, hsum8, ?_⟩
  simp only [flux_aggregator, TargetPixelFile.to_lightcurve, LightCurve.divNat, hsum8]
  norm_num

/-- Witness for C2 (amended) at the synthetic cube `cube3`, cadence 0. -/
theorem C2_amended_witness :
    (∀ i j, i < 3 → j < 3 →
      (back_mask cube3 (aper_mask cube3.pipeline_mask)).cell i j =
        !decide (i = 1 ∧ j = 1)) ∧
    (back_mask cube3 (aper_mask cube3.pipeline_mask)).sum = 8 ∧
    (flux_aggregator cube3 (back_mask cube3 (aper_mask cube3.pipeline_mask))).flux 0 =
      (∑ p ∈ (back_mask cube3 (aper_mask cube3.pipeline_mask)).trueCells,
        cube3.flux 0 p.1 p.2) / 8 :=
  C2_amended cube3 rfl rfl rfl (fun _ _ _ => rfl) (fun _ _ => rfl) 0

/-- The variable environment of `my_custom_lc_cleaner`: one field per
local variable of the routine, plus the input `tpf`. -/
structure CleanerEnv where
  tpf : TargetPixelFile
  aper : Mask2D
  back : Mask2D
  lcAper : LightCurve
  lcBack : LightCurve
  lcBgSub : LightCurve
  lcCln : LightCurve

/-- The seven statements of `my_custom_lc_cleaner`, run in order over an
explicit variable environment; each assignment replaces exactly the
variable it targets.  `tpf.pipeline_mask * False` allocates a fresh
array, so the slice assignment on the next line writes to the local
`aper_mask` only, never to `tpf.pipeline_mask`.  The parameter `ro` is
the external `remove_outliers` capability of the lightcurve type. -/
def cleanerRun (ro : LightCurve → LightCurve) (e : CleanerEnv) : CleanerEnv :=
  let e1 := { e with aper := maskTimesFalse e.tpf.pipeline_mask }
  let e2 := { e1 with aper := setInteriorTrue e1.aper }
  let e3 := { e2 with back := back_mask e2.tpf e2.aper }
  let e4 := { e3 with lcAper := flux_aggregator e3.tpf e3.aper }
  let e5 := { e4 with lcBack := flux_aggregator e4.tpf e4.back }
  let e6 := { e5 with lcBgSub := e5.lcAper.subFlux e5.lcBack.flux }
  { e6 with lcCln := ro e6.lcBgSub }

/-- A dummy lightcurve for initializing unassigned environment fields. -/
def lcEmpty : LightCurve := { n := 0, time := fun _ => 0, flux := fun _ => 0 }

/-- A dummy mask for initializing unassigned environment fields. -/
def maskEmpty : Mask2D := { H := 0, W := 0, cell := fun _ _ => false }

/-- `my_custom_lc_cleaner`: run the routine's statements on a fresh
environment holding the input `tpf` and return `lc_cln`. -/
def my_custom_lc_cleaner (ro : LightCurve → LightCurve)
    (tpf : TargetPixelFile) : LightCurve :=
  (cleanerRun ro
    { tpf := tpf, aper := maskEmpty, back := maskEmpty,
      lcAper := lcEmpty, lcBack := lcEmpty, lcBgSub := lcEmpty,
      lcCln := lcEmpty }).lcCln

/-- Claim C10: the Background Subtractor changes only the flux field —
its output keeps the source-aperture series' timestamps and cadence
count — and the whole cleaning routine leaves the input Pixel Cube
(flux, NaN pattern, timestamps) and the pipeline-provided Source Mask
unmodified in the environment, for any outlier-removal capability. -/
theorem C10_frame_effects (ro : LightCurve → LightCurve) (e : CleanerEnv) :
    (∀ (a : LightCurve) (g : Nat → ℚ),
      (a.subFlux g).time = a.time ∧ (a.subFlux g).n = a.n) ∧
    (cleanerRun ro e).lcBgSub.time = (cleanerRun ro e).lcAper.time ∧
    (cleanerRun ro e).lcBgSub.n = (cleanerRun ro e).lcAper.n ∧
    (cleanerRun ro e).tpf = e.tpf ∧
    (cleanerRun ro e).tpf.pipeline_mask = e.tpf.pipeline_mask ∧
    (cleanerRun ro e).tpf.flux = e.tpf.flux ∧
    (cleanerRun ro e).tpf.isnan = e.tpf.isnan ∧
    (cleanerRun ro e).tpf.time = e.tpf.time :=
  ⟨fun _ _ => ⟨rfl, rfl⟩, rfl, rfl, rfl, rfl, rfl, rfl, rfl⟩
